import Mathlib

/-
Verification of the batch download orchestrator of Baresha-Downloader
(src/youtube_downloader.py), as a shallow embedding in Lean 4.

The embedding translates, from the source:
  * the quality/format preset dictionaries and the `.get(label, default)`
    label resolution of `start_download_batch` (lines 102-120, 1153-1154);
  * `save_download_history` / `add_to_history` (lines 156-176), with the
    possibly-failing file write modelled as an explicit `Except` value and
    the `try/except: pass` as a total handler;
  * `load_settings` (lines 316-335), with the settings file modelled as
    missing / unreadable / parsed-dict, and Python `dict.update` /
    `dict.__setitem__` as `dictUpdate` / `dictSet` over association lists;
  * the batch metadata-fetch loop `fetch_thread` of
    `fetch_video_info_batch` (lines 1094-1134), with `get_video_info`
    as an oracle `String -> Except String VideoInfo`;
  * the worker loop `batch_thread` of `start_download_batch`
    (lines 1164-1216) together with the `pause_download` /
    `resume_download` / `cancel_download` handlers (lines 1420-1439),
    as a small-step machine: the worker advances one observable step at
    a time (top-of-loop cancel checkpoint, pause-wait, blocking download)
    and the UI handlers set/clear the shared pause/cancel flags between
    worker steps (interleaving semantics of the two threads);
  * the per-item and aggregate progress arithmetic of `progress_hook`
    (lines 1188-1201), over rationals.
-/

namespace BareshaDownloader

/-- The two fields of a fetched video-info dict that the batch worker
loop reads (`info['webpage_url']`, `info['title']`). -/
structure VideoInfo where
  webpage_url : String
  title : String
deriving DecidableEq, Repr

/-- One history record, as built by `add_to_history`
(src/youtube_downloader.py lines 165-176). -/
structure HistoryEntry where
  url : String
  title : String
  quality : String
  format : String
  status : String
  timestamp : String
deriving DecidableEq, Repr

/-- `self.quality_presets` (src/youtube_downloader.py lines 102-110). -/
def quality_presets : List (String × String) :=
  [("4K Ultra HD", "2160p"),
   ("2K QHD", "1440p"),
   ("1080p Full HD", "1080p"),
   ("720p HD", "720p"),
   ("480p SD", "480p"),
   ("360p", "360p"),
   ("Best Quality", "best")]

/-- `self.format_presets` (src/youtube_downloader.py lines 113-120). -/
def format_presets : List (String × String) :=
  [("MP4 Video", "mp4"),
   ("MP3 Audio", "mp3"),
   ("WebM Video", "webm"),
   ("M4A Audio", "m4a"),
   ("AAC Audio", "aac"),
   ("Best Format", "best")]

/-- `self.downloader.quality_presets.get(self.quality_var.get(), "best")`
(src/youtube_downloader.py line 1153). -/
def labelToQuality (label : String) : String :=
  (quality_presets.lookup label).getD "best"

/-- `self.downloader.format_presets.get(self.format_var.get(), "mp4")`
(src/youtube_downloader.py line 1154). -/
def labelToFormat (label : String) : String :=
  (format_presets.lookup label).getD "mp4"

/-- The `json.dump(...)` file write inside `save_download_history`:
an I/O action that either succeeds or raises, abstracted by the boolean
environment fact `ioOk`. -/
def json_dump_write (ioOk : Bool) : Except String Unit :=
  if ioOk then Except.ok () else Except.error "io error"

/-- `save_download_history` (src/youtube_downloader.py lines 156-163):
the write is wrapped in `try: ... except: pass`, so every outcome of the
I/O action is swallowed and the method returns normally. -/
def save_download_history (ioOk : Bool) (downloadHistory : List HistoryEntry) : Unit :=
  match json_dump_write ioOk with
  | Except.ok _ => ()
  | Except.error _ => ()

/-- `add_to_history` (src/youtube_downloader.py lines 165-176): build the
entry, append it to `self.download_history`, then attempt persistence via
`save_download_history`; the new in-memory list is the result. `now`
stands for `datetime.datetime.now().isoformat()`. -/
def add_to_history (ioOk : Bool) (downloadHistory : List HistoryEntry)
    (url title quality format_type status now : String) : List HistoryEntry :=
  let entry : HistoryEntry :=
    { url := url, title := title, quality := quality, format := format_type,
      status := status, timestamp := now }
  let newHistory := downloadHistory ++ [entry]
  let _ := save_download_history ioOk newHistory
  newHistory

/-- A JSON settings value, covering the shapes that occur in
`default_settings` (strings, booleans, numbers). -/
inductive SVal where
  | str (s : String)
  | bool (b : Bool)
  | nat (n : Nat)
deriving DecidableEq, Repr

/-- Python `d[k] = v` on a dict represented as an association list with
distinct keys: replace the value at the first occurrence of `k`, keeping
its position; append `(k, v)` when `k` is absent. -/
def dictSet : List (String × SVal) → String → SVal → List (String × SVal)
  | [], k, v => [(k, v)]
  | p :: rest, k, v =>
    if p.1 == k then (k, v) :: rest else p :: dictSet rest k v

/-- Python `d.update(kvs)`: set each pair of `kvs` in order. -/
def dictUpdate (d : List (String × SVal)) (kvs : List (String × SVal)) :
    List (String × SVal) :=
  kvs.foldl (fun d p => dictSet d p.1 p.2) d

/-- Python `d.get(k)` / `d[k]` lookup on the association-list dict. -/
def dictGet (d : List (String × SVal)) (k : String) : Option SVal :=
  d.lookup k

/-- The `default_settings` dict of `load_settings`
(src/youtube_downloader.py lines 318-327); `download_path` is
`self.download_path`, an environment value. -/
def default_settings (download_path : String) : List (String × SVal) :=
  [("theme", SVal.str "system"),
   ("download_path", SVal.str download_path),
   ("auto_play", SVal.bool false),
   ("default_quality", SVal.str "Best Quality"),
   ("default_format", SVal.str "MP4 Video"),
   ("clipboard_monitoring", SVal.bool true),
   ("speed_limit", SVal.nat 0),
   ("language", SVal.str "en")]

/-- The state of the settings file as `load_settings` can encounter it:
absent, present but failing to open/parse (the `except: pass` path), or
parsed into a JSON dict. -/
inductive SettingsFile where
  | missing
  | unreadable
  | parsed (kvs : List (String × SVal))

/-- `load_settings` (src/youtube_downloader.py lines 316-335): start from
`default_settings`; when the file exists and parses, run
`default_settings.update(loaded_settings)`; when it is missing, or any
exception occurs while reading/parsing, the defaults are returned
unchanged. -/
def load_settings (download_path : String) : SettingsFile → List (String × SVal)
  | SettingsFile.missing => default_settings download_path
  | SettingsFile.unreadable => default_settings download_path
  | SettingsFile.parsed kvs => dictUpdate (default_settings download_path) kvs

/-- The loop body of `fetch_thread` in `fetch_video_info_batch`
(src/youtube_downloader.py lines 1114-1130): on success append the info to
`batch_video_info`; on any exception log and increment `errors`, then
continue with the next URL. -/
def fetch_step (get_video_info : String → Except String VideoInfo)
    (acc : List VideoInfo × Nat) (url : String) : List VideoInfo × Nat :=
  match get_video_info url with
  | Except.ok info => (acc.1 ++ [info], acc.2)
  | Except.error _ => (acc.1, acc.2 + 1)

/-- `fetch_thread` (src/youtube_downloader.py lines 1114-1132): fold the
per-URL body over the URL list starting from an empty `batch_video_info`
and `errors = 0`; the pair is then handed to `update_video_info_batch`. -/
def fetch_thread (get_video_info : String → Except String VideoInfo)
    (urls : List String) : List VideoInfo × Nat :=
  urls.foldl (fetch_step get_video_info) ([], 0)

/-- `update_video_info_batch` (src/youtube_downloader.py lines 1136-1145):
the message surfaced to the user from the fetch pass's result. -/
def update_video_info_batch (batch_video_info : List VideoInfo) (errors : Nat) :
    String :=
  if batch_video_info.isEmpty then "No valid videos found."
  else "Ready to download " ++ toString batch_video_info.length ++
    " video(s). Errors: " ++ toString errors

/-- The environment of one batch run, fixed over the run:
  * `items` is `self.batch_video_info` at the time `batch_thread` starts;
  * `out i` tells whether `self.downloader.download_video` returns
    normally (`true`) or raises (`false`) for item `i`;
  * `quality` / `format_type` are the selectors resolved at lines
    1153-1154;
  * `now i` is the wall-clock iso timestamp read while recording item `i`;
  * `io i` is whether the history-file write for item `i` succeeds. -/
structure BatchEnv where
  items : List VideoInfo
  out : Nat → Bool
  quality : String
  format_type : String
  now : Nat → String
  io : Nat → Bool

/-- Where the worker thread of `batch_thread` stands between observable
steps:
  * `checkCancel`: at the top of the `for idx, info in enumerate(...)`
    loop — the iterator-exhaustion test followed by the
    `if self._cancel_event.is_set(): break` checkpoint (lines 1173-1177);
  * `waitPause`: at the `while not self._pause_event.is_set():
    time.sleep(0.2)` wait (lines 1179-1180);
  * `downloading`: inside the blocking
    `self.downloader.download_video(...)` call and its
    `try/except` recording of the outcome (lines 1202-1211);
  * `doneCompleted`: the loop ended by iterator exhaustion;
  * `doneCanceled`: the loop ended by the cancel `break`. -/
inductive Phase where
  | checkCancel
  | waitPause
  | downloading
  | doneCompleted
  | doneCanceled
deriving DecidableEq, Repr

/-- The shared state of one batch run: the worker's position (`idx`,
`phase`), the two `threading.Event` flags (`paused` is the negation of
`_pause_event.is_set()`; `canceled` is `_cancel_event.is_set()`), and the
in-memory `download_history` list. -/
structure BatchState where
  idx : Nat
  phase : Phase
  paused : Bool
  canceled : Bool
  history : List HistoryEntry
deriving DecidableEq, Repr

/-- The state right after `start_download_batch` set up the events
(`self._pause_event.set()`, fresh clear `self._cancel_event`, lines
1157-1159) and spawned `batch_thread`. -/
def initBatchState : BatchState :=
  { idx := 0, phase := Phase.checkCancel, paused := false, canceled := false,
    history := [] }

/-- One observable step of the worker thread of `batch_thread`
(src/youtube_downloader.py lines 1173-1211). At `checkCancel` the for
loop first tests iterator exhaustion, then the cancel checkpoint; at
`waitPause` it sleeps while paused; at `downloading` the blocking
download resolves with outcome `env.out s.idx` and the matching
`add_to_history` call records `"completed"` (the default status
argument) or `"failed"`, after which the loop moves to the next item's
top-of-loop checkpoint. -/
def workerStep (env : BatchEnv) (s : BatchState) : BatchState :=
  match s.phase with
  | Phase.checkCancel =>
    if env.items.length ≤ s.idx then { s with phase := Phase.doneCompleted }
    else if s.canceled then { s with phase := Phase.doneCanceled }
    else { s with phase := Phase.waitPause }
  | Phase.waitPause =>
    if s.paused then s else { s with phase := Phase.downloading }
  | Phase.downloading =>
    match env.items[s.idx]? with
    | some info =>
      { s with
        history := add_to_history (env.io s.idx) s.history info.webpage_url
          info.title env.quality env.format_type
          (if env.out s.idx then "completed" else "failed") (env.now s.idx),
        idx := s.idx + 1,
        phase := Phase.checkCancel }
    | none => { s with phase := Phase.doneCompleted }
  | Phase.doneCompleted => s
  | Phase.doneCanceled => s

/-- An observable action on the run: one worker step, or one of the UI
handlers `pause_download` (`_pause_event.clear()`), `resume_download`
(`_pause_event.set()`), `cancel_download` (`_cancel_event.set()`),
src/youtube_downloader.py lines 1420-1439. -/
inductive Act where
  | pause
  | resume
  | cancel
  | work
deriving DecidableEq, Repr

/-- Effect of one action on the shared state. -/
def act (env : BatchEnv) (s : BatchState) : Act → BatchState
  | Act.pause => { s with paused := true }
  | Act.resume => { s with paused := false }
  | Act.cancel => { s with canceled := true }
  | Act.work => workerStep env s

/-- One interleaved execution of the run: the actions happen in the
listed order. -/
def run (env : BatchEnv) (acts : List Act) (s : BatchState) : BatchState :=
  acts.foldl (act env) s

/-- `n` consecutive worker steps with no UI interference. -/
def runW (env : BatchEnv) : Nat → BatchState → BatchState
  | 0, s => s
  | n + 1, s => runW env n (workerStep env s)

/-- The history entry the worker records for item `i`
(the `add_to_history` calls at lines 1205 and 1209). -/
def batchEntry (env : BatchEnv) (i : Nat) : HistoryEntry :=
  { url := ((env.items[i]?).map VideoInfo.webpage_url).getD "",
    title := ((env.items[i]?).map VideoInfo.title).getD "",
    quality := env.quality,
    format := env.format_type,
    status := if env.out i then "completed" else "failed",
    timestamp := env.now i }

/-- The whole worker run when no pause/resume/cancel ever happens: three
observable steps per item (checkpoint, pause-wait, download) plus the
final iterator-exhaustion step that ends the for loop. -/
def batchRunUninterrupted (env : BatchEnv) : BatchState :=
  run env (List.replicate (3 * env.items.length + 1) Act.work) initBatchState

/-- The guard of `start_download_batch` (src/youtube_downloader.py lines
1149-1152): the method returns early only when `batch_video_info` is
absent/empty; it performs no check of an already-active run (the
`runActive` argument is not consulted anywhere), so it proceeds to spawn
`batch_thread` whenever fetched items exist. -/
def start_download_batch_spawns (batch_video_info : List VideoInfo)
    (runActive : Bool) : Bool :=
  if batch_video_info.isEmpty then false else true

/-- The signalling effect of `start_download_batch` on the shared state
(lines 1157-1159): `self._pause_event = threading.Event(); set()` and
`self._cancel_event = threading.Event()` replace the event objects every
running `batch_thread` reads through `self`, so an already-active run
observes `paused = false, canceled = false` afterwards. -/
def start_download_batch_reset (s : BatchState) : BatchState :=
  { s with paused := false, canceled := false }

/-- Per-item percent computed by `progress_hook`
(src/youtube_downloader.py line 1190):
`(d['downloaded_bytes'] / d['total_bytes']) * 100`. -/
def item_progress (downloaded_bytes total_bytes : ℚ) : ℚ :=
  downloaded_bytes / total_bytes * 100

/-- Aggregate batch percent computed by `progress_hook`
(src/youtube_downloader.py line 1192):
`((idx + progress/100) / total) * 100`. -/
def batch_progress (idx total : Nat) (progress : ℚ) : ℚ :=
  (((idx : ℚ) + progress / 100) / (total : ℚ)) * 100

/-- Aggregate percent posted by the `'finished'` branch of
`progress_hook` (src/youtube_downloader.py line 1201):
`((idx+1)/total)*100`. -/
def finished_batch_progress (idx total : Nat) : ℚ :=
  (((idx : ℚ) + 1) / (total : ℚ)) * 100

/-- Modelled from the spec words: "aggregate percent =
`(index + itemPercent/100) / totalItemCount * 100`"; stated separately to
compare with the source's `batch_progress`. -/
def aggregateSpecFormula (index : Nat) (itemPercent : ℚ)
    (totalItemCount : Nat) : ℚ :=
  (((index : ℚ) + itemPercent / 100) / (totalItemCount : ℚ)) * 100

/-- Concrete one-item environment: metadata for one URL, a download
capability that succeeds, used for concrete executions. -/
def envOneOk : BatchEnv :=
  { items := [{ webpage_url := "u1", title := "t1" }],
    out := fun _ => true, quality := "best", format_type := "mp4",
    now := fun _ => "ts", io := fun _ => true }

/-- Concrete two-item environment with both downloads succeeding. -/
def envTwoOk : BatchEnv :=
  { items := [{ webpage_url := "u1", title := "t1" },
              { webpage_url := "u2", title := "t2" }],
    out := fun _ => true, quality := "best", format_type := "mp4",
    now := fun _ => "ts", io := fun _ => true }

/-- Concrete one-item environment whose download raises. -/
def envOneFail : BatchEnv :=
  { items := [{ webpage_url := "u1", title := "t1" }],
    out := fun _ => false, quality := "best", format_type := "mp4",
    now := fun _ => "ts", io := fun _ => true }

/-! ### Helper lemmas -/

lemma lookup_getD_of_not_mem_keys :
    ∀ (ps : List (String × String)) (l d : String),
      l ∉ ps.map Prod.fst → ((ps.lookup l).getD d) = d := by
  intro ps
  induction ps with
  | nil => intro l d _; rfl
  | cons p rest ih =>
    intro l d h
    simp only [List.map_cons, List.mem_cons, not_or] at h
    have hne : (l == p.1) = false := beq_eq_false_iff_ne.mpr h.1
    simp only [List.lookup, hne]
    exact ih l d h.2

lemma fetch_thread_foldl (gvi : String → Except String VideoInfo) :
    ∀ (urls : List String) (acc : List VideoInfo × Nat),
      urls.foldl (fetch_step gvi) acc =
        (acc.1 ++ urls.filterMap (fun u => (gvi u).toOption),
         acc.2 + urls.countP (fun u => ((gvi u).toOption).isNone)) := by
  intro urls
  induction urls with
  | nil => intro acc; simp
  | cons u rest ih =>
    intro acc
    cases hgu : gvi u with
    | ok info =>
      simp [List.foldl_cons, fetch_step, hgu, ih, List.filterMap_cons,
        List.countP_cons, Except.toOption]
    | error e =>
      simp [List.foldl_cons, fetch_step, hgu, ih, List.filterMap_cons,
        List.countP_cons, Except.toOption]
      omega

lemma dictGet_dictSet_self (d : List (String × SVal)) (k : String) (v : SVal) :
    dictGet (dictSet d k v) k = some v := by
  induction d with
  | nil => simp [dictSet, dictGet, List.lookup]
  | cons p rest ih =>
    by_cases h : p.1 = k
    · simp [dictSet, dictGet, List.lookup, h]
    · have hb : (p.1 == k) = false := beq_eq_false_iff_ne.mpr h
      have hb' : (k == p.1) = false := beq_eq_false_iff_ne.mpr (Ne.symm h)
      simp only [dictSet, hb, if_false]
      simpa [dictGet, List.lookup, hb'] using ih

lemma dictGet_dictSet_ne (d : List (String × SVal)) (k k' : String) (v : SVal)
    (h : k' ≠ k) : dictGet (dictSet d k' v) k = dictGet d k := by
  induction d with
  | nil =>
    have hb : (k == k') = false := beq_eq_false_iff_ne.mpr (Ne.symm h)
    simp [dictSet, dictGet, List.lookup, hb]
  | cons p rest ih =>
    by_cases hp : p.1 = k'
    · have hb : (p.1 == k') = true := beq_iff_eq.mpr hp
      have hbk : (k == k') = false := beq_eq_false_iff_ne.mpr (Ne.symm h)
      have hbk' : (k == p.1) = false := by
        subst hp; exact hbk
      simp [dictSet, dictGet, List.lookup, hb, hbk, hbk']
    · have hb : (p.1 == k') = false := beq_eq_false_iff_ne.mpr hp
      simp only [dictSet, hb, if_false]
      by_cases hk : p.1 = k
      · simp [dictGet, List.lookup, beq_iff_eq.mpr hk.symm]
      · have hbk : (k == p.1) = false := beq_eq_false_iff_ne.mpr (Ne.symm hk)
        simpa [dictGet, List.lookup, hbk] using ih

lemma isSome_dictGet_of_mem_keys (d : List (String × SVal)) (k : String)
    (h : k ∈ d.map Prod.fst) : (dictGet d k).isSome = true := by
  induction d with
  | nil => simp at h
  | cons p rest ih =>
    simp only [List.map_cons, List.mem_cons] at h
    rcases h with h | h
    · simp [dictGet, List.lookup, beq_iff_eq.mpr h]
    · by_cases hk : k = p.1
      · simp [dictGet, List.lookup, beq_iff_eq.mpr hk]
      · have hb : (k == p.1) = false := beq_eq_false_iff_ne.mpr hk
        simpa [dictGet, List.lookup, hb] using ih h

lemma mem_keys_dictSet (d : List (String × SVal)) (k k' : String) (v : SVal)
    (h : k ∈ d.map Prod.fst) : k ∈ (dictSet d k' v).map Prod.fst := by
  induction d with
  | nil => simp at h
  | cons p rest ih =>
    simp only [List.map_cons, List.mem_cons] at h
    by_cases hp : p.1 = k'
    · have hb : (p.1 == k') = true := beq_iff_eq.mpr hp
      rcases h with h | h
      · simp [dictSet, hb, hp ▸ h]
      · simp [dictSet, hb, h]
    · have hb : (p.1 == k') = false := beq_eq_false_iff_ne.mpr hp
      rcases h with h | h
      · simp [dictSet, hb, h]
      · simp only [dictSet, hb, Bool.false_eq_true, if_false, List.map_cons,
          List.mem_cons]
        exact Or.inr (ih h)

lemma dictUpdate_cons (d : List (String × SVal)) (p : String × SVal)
    (rest : List (String × SVal)) :
    dictUpdate d (p :: rest) = dictUpdate (dictSet d p.1 p.2) rest := by
  simp [dictUpdate, List.foldl_cons]

lemma mem_keys_dictUpdate (kvs : List (String × SVal)) :
    ∀ (d : List (String × SVal)) (k : String), k ∈ d.map Prod.fst →
      k ∈ (dictUpdate d kvs).map Prod.fst := by
  induction kvs with
  | nil => intro d k h; simpa [dictUpdate] using h
  | cons p rest ih =>
    intro d k h
    rw [dictUpdate_cons]
    exact ih (dictSet d p.1 p.2) k (mem_keys_dictSet d k p.1 p.2 h)

lemma dictGet_dictUpdate_not_mem (kvs : List (String × SVal)) :
    ∀ (d : List (String × SVal)) (k : String), k ∉ kvs.map Prod.fst →
      dictGet (dictUpdate d kvs) k = dictGet d k := by
  induction kvs with
  | nil => intro d k _; rfl
  | cons p rest ih =>
    intro d k h
    simp only [List.map_cons, List.mem_cons, not_or] at h
    rw [dictUpdate_cons, ih _ k h.2]
    exact dictGet_dictSet_ne d k p.1 p.2 (Ne.symm h.1)

lemma dictGet_dictUpdate_mem (kvs : List (String × SVal)) :
    ∀ (d : List (String × SVal)) (k : String) (v : SVal),
      (kvs.map Prod.fst).Nodup → (k, v) ∈ kvs →
      dictGet (dictUpdate d kvs) k = some v := by
  induction kvs with
  | nil => intro d k v _ hm; simp at hm
  | cons p rest ih =>
    intro d k v hnd hm
    simp only [List.map_cons, List.nodup_cons] at hnd
    rcases List.mem_cons.mp hm with h | h
    · have hk : k = p.1 := congrArg Prod.fst h
      have hv : v = p.2 := congrArg Prod.snd h
      have hknot : k ∉ rest.map Prod.fst := by rw [hk]; exact hnd.1
      rw [dictUpdate_cons, dictGet_dictUpdate_not_mem rest _ k hknot, hk, hv]
      exact dictGet_dictSet_self d p.1 p.2
    · rw [dictUpdate_cons]
      exact ih (dictSet d p.1 p.2) k v hnd.2 h

/-! ### Claim theorems: label mappings, history, settings, fetch pass -/

/-- C7: `labelToQuality` and `labelToFormat` are total pure functions:
every label yields exactly one selector, and every label outside the
preset key set yields the defaults `"best"` and `"mp4"`. -/
theorem label_mappings_total_with_defaults :
    (∀ label : String, ∃! q : String, labelToQuality label = q) ∧
    (∀ label : String, ∃! f : String, labelToFormat label = f) ∧
    (∀ label : String, label ∉ quality_presets.map Prod.fst →
      labelToQuality label = "best") ∧
    (∀ label : String, label ∉ format_presets.map Prod.fst →
      labelToFormat label = "mp4") := by
  refine ⟨fun label => ⟨labelToQuality label, rfl, fun y h => h.symm⟩,
    fun label => ⟨labelToFormat label, rfl, fun y h => h.symm⟩, ?_, ?_⟩
  · intro label h; exact lookup_getD_of_not_mem_keys quality_presets label "best" h
  · intro label h; exact lookup_getD_of_not_mem_keys format_presets label "mp4" h

/-- C7 witness: the unknown label `"Custom"` maps to the defaults. -/
theorem label_mappings_total_with_defaults_witness :
    labelToQuality "Custom" = "best" ∧ labelToFormat "Custom" = "mp4" :=
  ⟨label_mappings_total_with_defaults.2.2.1 "Custom" (by decide),
   label_mappings_total_with_defaults.2.2.2 "Custom" (by decide)⟩

/-- C9: `add_to_history` is total (never raises) and always appends the
new entry to the in-memory list; the result does not depend on whether
the persistence write succeeds (`ioOk`), so a write failure is swallowed
and the in-memory list, new entry included, is the result either way. -/
theorem add_to_history_total_append :
    ∀ (ioOk : Bool) (downloadHistory : List HistoryEntry)
      (url title quality format_type status now : String),
      add_to_history ioOk downloadHistory url title quality format_type status now
        = downloadHistory ++
          [{ url := url, title := title, quality := quality,
             format := format_type, status := status, timestamp := now }] ∧
      add_to_history ioOk downloadHistory url title quality format_type status now
        = add_to_history true downloadHistory url title quality format_type status now := by
  intro ioOk downloadHistory url title quality format_type status now
  exact ⟨rfl, rfl⟩

/-- C10: `load_settings` always yields a dict with every default key
present; a missing or unreadable file yields exactly the defaults; keys
absent from the parsed file keep their default value; keys present in the
parsed file override the defaults. -/
theorem load_settings_defaults_and_overrides (download_path : String) :
    (∀ (file : SettingsFile) (k : String),
      k ∈ (default_settings download_path).map Prod.fst →
      (dictGet (load_settings download_path file) k).isSome = true) ∧
    load_settings download_path SettingsFile.missing
      = default_settings download_path ∧
    load_settings download_path SettingsFile.unreadable
      = default_settings download_path ∧
    (∀ (kvs : List (String × SVal)) (k : String), k ∉ kvs.map Prod.fst →
      dictGet (load_settings download_path (SettingsFile.parsed kvs)) k
        = dictGet (default_settings download_path) k) ∧
    (∀ (kvs : List (String × SVal)) (k : String) (v : SVal),
      (kvs.map Prod.fst).Nodup → (k, v) ∈ kvs →
      dictGet (load_settings download_path (SettingsFile.parsed kvs)) k
        = some v) := by
  refine ⟨?_, rfl, rfl, ?_, ?_⟩
  · intro file k hk
    cases file with
    | missing => exact isSome_dictGet_of_mem_keys _ k hk
    | unreadable => exact isSome_dictGet_of_mem_keys _ k hk
    | parsed kvs =>
      exact isSome_dictGet_of_mem_keys _ k
        (mem_keys_dictUpdate kvs (default_settings download_path) k hk)
  · intro kvs k hk
    exact dictGet_dictUpdate_not_mem kvs (default_settings download_path) k hk
  · intro kvs k v hnd hm
    exact dictGet_dictUpdate_mem kvs (default_settings download_path) k v hnd hm

/-- C10 witness: a one-key settings file overrides `theme` and leaves
`speed_limit` at its default. -/
theorem load_settings_defaults_and_overrides_witness :
    dictGet (load_settings "D"
        (SettingsFile.parsed [("theme", SVal.str "dark")])) "theme"
      = some (SVal.str "dark") ∧
    dictGet (load_settings "D"
        (SettingsFile.parsed [("theme", SVal.str "dark")])) "speed_limit"
      = dictGet (default_settings "D") "speed_limit" :=
  ⟨(load_settings_defaults_and_overrides "D").2.2.2.2
      [("theme", SVal.str "dark")] "theme" (SVal.str "dark")
      (by decide) (by decide),
   (load_settings_defaults_and_overrides "D").2.2.2.1
      [("theme", SVal.str "dark")] "speed_limit" (by decide)⟩

/-- C8: the batch metadata-fetch pass resolves each URL independently —
its result is exactly the successfully resolved infos together with the
count of failures, a failing URL only bumps the failure count of the
remaining pass, and a succeeding URL only prepends its info. -/
theorem fetch_batch_isolates_failures
    (gvi : String → Except String VideoInfo) (urls : List String) :
    fetch_thread gvi urls
      = (urls.filterMap (fun u => (gvi u).toOption),
         urls.countP (fun u => ((gvi u).toOption).isNone)) ∧
    (∀ (u e : String) (rest : List String), gvi u = Except.error e →
      fetch_thread gvi (u :: rest)
        = ((fetch_thread gvi rest).1, (fetch_thread gvi rest).2 + 1)) ∧
    (∀ (u : String) (info : VideoInfo) (rest : List String),
      gvi u = Except.ok info →
      fetch_thread gvi (u :: rest)
        = (info :: (fetch_thread gvi rest).1, (fetch_thread gvi rest).2)) := by
  refine ⟨by simpa [fetch_thread] using fetch_thread_foldl gvi urls ([], 0), ?_, ?_⟩
  · intro u e rest hgu
    simp [fetch_thread, List.foldl_cons, fetch_step, hgu,
      fetch_thread_foldl gvi rest]
    omega
  · intro u info rest hgu
    simp [fetch_thread, List.foldl_cons, fetch_step, hgu,
      fetch_thread_foldl gvi rest]

/-- C8 witness: one failing URL is counted, an empty remainder is
unaffected. -/
theorem fetch_batch_isolates_failures_witness :
    fetch_thread (fun _ => Except.error "boom") ["a"]
      = ((fetch_thread (fun _ => Except.error "boom") ([] : List String)).1,
         (fetch_thread (fun _ => Except.error "boom") ([] : List String)).2 + 1) :=
  (fetch_batch_isolates_failures (fun _ => Except.error "boom") []).2.1
    "a" "boom" [] rfl

/-- C5 (single-flight violated by the code): `start_download_batch`
spawns a new worker whenever fetched items exist, regardless of an
already-active run — the `Ctrl-d` binding invokes it directly while the
Download button is disabled — and its event reset erases a pending
pause/cancel signal of the active run. -/
theorem start_download_batch_no_single_flight_guard :
    start_download_batch_spawns [{ webpage_url := "u1", title := "t1" }] true
      = true ∧
    (start_download_batch_reset
      { idx := 0, phase := Phase.downloading, paused := true, canceled := true,
        history := [] }).paused = false ∧
    (start_download_batch_reset
      { idx := 0, phase := Phase.downloading, paused := true, canceled := true,
        history := [] }).canceled = false :=
  ⟨rfl, rfl, rfl⟩

/-- C6: the aggregate batch percentage of `progress_hook` is exactly the
spec's equal-weight formula, per-item percentages stay within `[0, 100]`,
the aggregate is monotonically non-decreasing along the run's
lexicographic (item index, item percent) order, the `'finished'` update
equals the formula at 100 percent, and it reaches exactly 100 at natural
completion. -/
theorem aggregate_progress_equal_weight_monotone_complete :
    (∀ (idx total : Nat) (p : ℚ),
      batch_progress idx total p = aggregateSpecFormula idx p total) ∧
    (∀ d t : ℚ, 0 ≤ d → d ≤ t → 0 < t →
      0 ≤ item_progress d t ∧ item_progress d t ≤ 100) ∧
    (∀ (total i1 i2 : Nat) (p1 p2 : ℚ), 0 < total →
      0 ≤ p1 → p1 ≤ 100 → 0 ≤ p2 → p2 ≤ 100 →
      (i1 < i2 ∨ (i1 = i2 ∧ p1 ≤ p2)) →
      batch_progress i1 total p1 ≤ batch_progress i2 total p2) ∧
    (∀ idx total : Nat,
      finished_batch_progress idx total = batch_progress idx total 100) ∧
    (∀ total : Nat, 0 < total → finished_batch_progress (total - 1) total = 100) := by
  refine ⟨fun _ _ _ => rfl, ?_, ?_, ?_, ?_⟩
  · intro d t hd hdt ht
    constructor
    · exact mul_nonneg (div_nonneg hd ht.le) (by norm_num)
    · have h1 : d / t ≤ 1 := (div_le_one ht).mpr hdt
      calc d / t * 100 ≤ 1 * 100 :=
            mul_le_mul_of_nonneg_right h1 (by norm_num)
        _ = 100 := one_mul 100
  · intro total i1 i2 p1 p2 ht hp1 hp1' hp2 hp2' hord
    have htQ : (0 : ℚ) < (total : ℚ) := by exact_mod_cast ht
    have key : (i1 : ℚ) + p1 / 100 ≤ (i2 : ℚ) + p2 / 100 := by
      rcases hord with hlt | ⟨heq, hple⟩
      · have h1 : p1 / 100 ≤ 1 := (div_le_one (by norm_num)).mpr hp1'
        have h2 : (0 : ℚ) ≤ p2 / 100 := div_nonneg hp2 (by norm_num)
        have h3 : (i1 : ℚ) + 1 ≤ (i2 : ℚ) := by
          exact_mod_cast Nat.succ_le_of_lt hlt
        linarith
      · subst heq; linarith
    have h4 : ((i1 : ℚ) + p1 / 100) / (total : ℚ)
        ≤ ((i2 : ℚ) + p2 / 100) / (total : ℚ) :=
      (div_le_div_right htQ).mpr key
    exact mul_le_mul_of_nonneg_right h4 (by norm_num)
  · intro idx total
    unfold finished_batch_progress batch_progress
    norm_num
  · intro total ht
    have htQ : (total : ℚ) ≠ 0 := Nat.cast_ne_zero.mpr (Nat.pos_iff_ne_zero.mp ht)
    unfold finished_batch_progress
    rw [Nat.cast_sub ht, Nat.cast_one, sub_add_cancel, div_self htQ, one_mul]

/-- C6 witness: a three-item batch reaches exactly 100 at natural
completion. -/
theorem aggregate_progress_equal_weight_monotone_complete_witness :
    finished_batch_progress (3 - 1) 3 = 100 :=
  aggregate_progress_equal_weight_monotone_complete.2.2.2.2 3 (by norm_num)

/-! ### Lemmas about the batch worker state machine -/

lemma run_cons (env : BatchEnv) (a : Act) (rest : List Act) (s : BatchState) :
    run env (a :: rest) s = run env rest (act env s a) := rfl

lemma runW_succ (env : BatchEnv) (n : Nat) (s : BatchState) :
    runW env (n + 1) s = runW env n (workerStep env s) := rfl

lemma runW_add (env : BatchEnv) :
    ∀ (a b : Nat) (s : BatchState), runW env (a + b) s = runW env b (runW env a s) := by
  intro a
  induction a with
  | zero => intro b s; rw [Nat.zero_add]; rfl
  | succ a ih =>
    intro b s
    have h : a + 1 + b = (a + b) + 1 := by omega
    rw [h, runW_succ, runW_succ]
    exact ih b (workerStep env s)

lemma run_replicate_work (env : BatchEnv) :
    ∀ (n : Nat) (s : BatchState),
      run env (List.replicate n Act.work) s = runW env n s := by
  intro n
  induction n with
  | zero => intro s; rfl
  | succ n ih =>
    intro s
    rw [List.replicate_succ, run_cons, runW_succ]
    exact ih (workerStep env s)

lemma workerStep_checkCancel_go (env : BatchEnv) (s : BatchState)
    (h1 : s.phase = Phase.checkCancel) (h2 : s.canceled = false)
    (h3 : s.idx < env.items.length) :
    workerStep env s = { s with phase := Phase.waitPause } := by
  simp [workerStep, h1, h2, Nat.not_le.mpr h3]

lemma workerStep_checkCancel_cancel (env : BatchEnv) (s : BatchState)
    (h1 : s.phase = Phase.checkCancel) (h2 : s.canceled = true)
    (h3 : s.idx < env.items.length) :
    workerStep env s = { s with phase := Phase.doneCanceled } := by
  simp [workerStep, h1, h2, Nat.not_le.mpr h3]

lemma workerStep_waitPause_go (env : BatchEnv) (s : BatchState)
    (h1 : s.phase = Phase.waitPause) (h2 : s.paused = false) :
    workerStep env s = { s with phase := Phase.downloading } := by
  simp [workerStep, h1, h2]

lemma workerStep_downloading_eq (env : BatchEnv) (s : BatchState)
    (info : VideoInfo) (h1 : s.phase = Phase.downloading)
    (h2 : env.items[s.idx]? = some info) :
    workerStep env s
      = { s with
          history := s.history ++
            [{ url := info.webpage_url, title := info.title,
               quality := env.quality, format := env.format_type,
               status := if env.out s.idx then "completed" else "failed",
               timestamp := env.now s.idx }],
          idx := s.idx + 1,
          phase := Phase.checkCancel } := by
  simp [workerStep, h1, h2, add_to_history]

lemma batchEntry_eq_of_get? (env : BatchEnv) (i : Nat) (info : VideoInfo)
    (h : env.items[i]? = some info) :
    batchEntry env i
      = { url := info.webpage_url, title := info.title,
          quality := env.quality, format := env.format_type,
          status := if env.out i then "completed" else "failed",
          timestamp := env.now i } := by
  simp [batchEntry, h]

lemma runW_three_steps (env : BatchEnv) (k : Nat) (hist : List HistoryEntry)
    (info : VideoInfo) (hk : env.items[k]? = some info) :
    runW env 3
      { idx := k, phase := Phase.checkCancel, paused := false,
        canceled := false, history := hist }
      = { idx := k + 1, phase := Phase.checkCancel, paused := false,
          canceled := false, history := hist ++ [batchEntry env k] } := by
  obtain ⟨hlt, -⟩ := List.getElem?_eq_some.mp hk
  have h1 : ¬ env.items.length ≤ k := Nat.not_le.mpr hlt
  show workerStep env (workerStep env (workerStep env _)) = _
  simp [workerStep, h1, hk, add_to_history, batchEntry]

lemma runW_segment (env : BatchEnv) :
    ∀ (n k : Nat) (hist : List HistoryEntry), k + n = env.items.length →
      runW env (3 * n + 1)
        { idx := k, phase := Phase.checkCancel, paused := false,
          canceled := false, history := hist }
        = { idx := env.items.length, phase := Phase.doneCompleted,
            paused := false, canceled := false,
            history := hist ++
              (List.range n).map (fun j => batchEntry env (k + j)) } := by
  intro n
  induction n with
  | zero =>
    intro k hist hkn
    have hk : k = env.items.length := by omega
    subst hk
    simp [runW, workerStep]
  | succ m ih =>
    intro k hist hkn
    have hlt : k < env.items.length := by omega
    obtain ⟨info, hinfo⟩ : ∃ info, env.items[k]? = some info := by
      cases h : env.items[k]? with
      | none => exact absurd (List.getElem?_eq_none_iff.mp h) (by omega)
      | some i => exact ⟨i, rfl⟩
    have harith : 3 * (m + 1) + 1 = 3 + (3 * m + 1) := by ring
    rw [harith, runW_add env 3 (3 * m + 1),
      runW_three_steps env k hist info hinfo,
      ih (k + 1) (hist ++ [batchEntry env k]) (by omega)]
    have hmap : (List.range (m + 1)).map (fun j => batchEntry env (k + j))
        = batchEntry env k ::
          (List.range m).map (fun j => batchEntry env (k + 1 + j)) := by
      rw [List.range_succ_eq_map, List.map_cons, List.map_map]
      have hfun : (fun j => batchEntry env (k + j)) ∘ Nat.succ
          = fun j => batchEntry env (k + 1 + j) := by
        funext j
        simp only [Function.comp]
        congr 1
        omega
      rw [hfun]
      simp
    rw [hmap]
    simp [List.append_assoc]

/-- The closed form of an uninterrupted batch run: every item, in queue
order, contributes exactly its one history entry, and the for loop ends
by iterator exhaustion. -/
lemma batchRunUninterrupted_eq (env : BatchEnv) :
    batchRunUninterrupted env
      = { idx := env.items.length, phase := Phase.doneCompleted,
          paused := false, canceled := false,
          history := (List.range env.items.length).map
            (fun j => batchEntry env j) } := by
  unfold batchRunUninterrupted initBatchState
  rw [run_replicate_work]
  have h := runW_segment env env.items.length 0 [] (by omega)
  simpa using h

lemma run_absorbs_doneCanceled (env : BatchEnv) :
    ∀ (acts : List Act) (s : BatchState), s.phase = Phase.doneCanceled →
      (run env acts s).history = s.history ∧
      (run env acts s).phase = Phase.doneCanceled := by
  intro acts
  induction acts with
  | nil => intro s h; exact ⟨rfl, h⟩
  | cons a rest ih =>
    intro s h
    have hstep : (act env s a).history = s.history ∧
        (act env s a).phase = Phase.doneCanceled := by
      cases a with
      | pause => exact ⟨rfl, h⟩
      | resume => exact ⟨rfl, h⟩
      | cancel => exact ⟨rfl, h⟩
      | work => simp [act, workerStep, h]
    rw [run_cons]
    obtain ⟨h1, h2⟩ := hstep
    obtain ⟨h3, h4⟩ := ih (act env s a) h2
    exact ⟨h3.trans h1, h4⟩

lemma act_paused_invariant (env : BatchEnv) (s : BatchState) (a : Act)
    (ha : a ≠ Act.resume) (hp : s.paused = true)
    (hph : s.phase ≠ Phase.downloading) :
    (act env s a).paused = true ∧ (act env s a).phase ≠ Phase.downloading ∧
    (act env s a).history = s.history := by
  cases a with
  | pause => exact ⟨rfl, hph, rfl⟩
  | resume => exact absurd rfl ha
  | cancel => exact ⟨hp, hph, rfl⟩
  | work =>
    cases h : s.phase with
    | checkCancel =>
      by_cases hle : env.items.length ≤ s.idx
      · simp [act, workerStep, h, hle, hp]
      · by_cases hc : s.canceled <;> simp [act, workerStep, h, hle, hc, hp]
    | waitPause => simp [act, workerStep, h, hp]
    | downloading => exact absurd h hph
    | doneCompleted => simp [act, workerStep, h, hp]
    | doneCanceled => simp [act, workerStep, h, hp]

/-! ### Claim theorems: the batch worker loop -/

/-- C1: an uninterrupted batch run over a non-empty item list completes
naturally, appends exactly one history entry per item, every entry's
status is `"completed"` or `"failed"`, and entry `i` records item `i`
(submission order). -/
theorem batch_uninterrupted_appends_one_entry_per_item_in_order
    (env : BatchEnv) (hne : env.items ≠ []) :
    (batchRunUninterrupted env).phase = Phase.doneCompleted ∧
    (batchRunUninterrupted env).history.length = env.items.length ∧
    (∀ e ∈ (batchRunUninterrupted env).history,
      e.status = "completed" ∨ e.status = "failed") ∧
    (∀ (i : Nat) (info : VideoInfo), env.items[i]? = some info →
      (batchRunUninterrupted env).history[i]?
        = some { url := info.webpage_url, title := info.title,
                 quality := env.quality, format := env.format_type,
                 status := if env.out i then "completed" else "failed",
                 timestamp := env.now i }) := by
  rw [batchRunUninterrupted_eq]
  refine ⟨rfl, by simp, ?_, ?_⟩
  · intro e he
    simp only [List.mem_map, List.mem_range] at he
    obtain ⟨j, hj, rfl⟩ := he
    by_cases h : env.out j
    · left; simp [batchEntry, h]
    · right; simp [batchEntry, h]
  · intro i info hinfo
    obtain ⟨hi, -⟩ := List.getElem?_eq_some.mp hinfo
    simp only [List.getElem?_map, List.getElem?_range hi, Option.map_some]
    exact congrArg some (batchEntry_eq_of_get? env i info hinfo)

/-- C1 witness: a concrete two-item batch with succeeding downloads. -/
theorem batch_uninterrupted_appends_one_entry_per_item_in_order_witness :
    (batchRunUninterrupted envTwoOk).phase = Phase.doneCompleted ∧
    (batchRunUninterrupted envTwoOk).history.length = envTwoOk.items.length :=
  ⟨(batch_uninterrupted_appends_one_entry_per_item_in_order envTwoOk
      (by decide)).1,
   (batch_uninterrupted_appends_one_entry_per_item_in_order envTwoOk
      (by decide)).2.1⟩

/-- C2: when the download capability raises for an item, the worker
appends a `"failed"` history entry for that item and advances to the next
item's top-of-loop checkpoint exactly as on success; consequently every
item of an uninterrupted run is processed regardless of failures, and the
failing item's entry carries status `"failed"`. -/
theorem per_item_failure_recorded_and_loop_continues (env : BatchEnv) :
    (∀ (s : BatchState) (info : VideoInfo), s.phase = Phase.downloading →
      env.items[s.idx]? = some info → env.out s.idx = false →
      (workerStep env s).history
        = s.history ++ [({ url := info.webpage_url, title := info.title,
                           quality := env.quality, format := env.format_type,
                           status := "failed",
                           timestamp := env.now s.idx } : HistoryEntry)] ∧
      (workerStep env s).phase = Phase.checkCancel ∧
      (workerStep env s).idx = s.idx + 1) ∧
    (∀ (j : Nat) (info : VideoInfo), env.items[j]? = some info →
      env.out j = false →
      (batchRunUninterrupted env).history.length = env.items.length ∧
      (batchRunUninterrupted env).history[j]?
        = some { url := info.webpage_url, title := info.title,
                 quality := env.quality, format := env.format_type,
                 status := "failed", timestamp := env.now j }) := by
  constructor
  · intro s info hph hget hout
    rw [workerStep_downloading_eq env s info hph hget]
    refine ⟨?_, rfl, rfl⟩
    simp [hout]
  · intro j info hget hout
    rw [batchRunUninterrupted_eq]
    obtain ⟨hj, -⟩ := List.getElem?_eq_some.mp hget
    refine ⟨by simp, ?_⟩
    simp only [List.getElem?_map, List.getElem?_range hj, Option.map_some]
    have he : batchEntry env j
        = { url := info.webpage_url, title := info.title,
            quality := env.quality, format := env.format_type,
            status := "failed", timestamp := env.now j } := by
      rw [batchEntry_eq_of_get? env j info hget]
      simp [hout]
    exact congrArg some he

/-- C2 witness: a one-item batch whose download raises still yields a
full-length history with a `"failed"` entry. -/
theorem per_item_failure_recorded_and_loop_continues_witness :
    (batchRunUninterrupted envOneFail).history.length
        = envOneFail.items.length ∧
    (batchRunUninterrupted envOneFail).history.get? 0
      = some { url := "u1", title := "t1", quality := "best",
               format := "mp4", status := "failed", timestamp := "ts" } :=
  (per_item_failure_recorded_and_loop_continues envOneFail).2 0
    { webpage_url := "u1", title := "t1" } (by decide) rfl

/-- C3 counterexample: in the one-item environment, after one worker step
no item has started (the worker sits at the pause-wait, history empty);
cancel is requested at that point — before any item starts — yet the run
appends one history entry and even ends `doneCompleted`, because the
cancel flag is only consulted at the top-of-loop checkpoint, which item 0
has already passed. -/
theorem cancel_requested_before_item_start_still_appends :
    ((run envOneOk [Act.work] initBatchState).history = [] ∧
     (run envOneOk [Act.work] initBatchState).phase = Phase.waitPause) ∧
    (run envOneOk [Act.work, Act.cancel, Act.work, Act.work, Act.work]
        initBatchState).history.length = 1 ∧
    (run envOneOk [Act.work, Act.cancel, Act.work, Act.work, Act.work]
        initBatchState).phase = Phase.doneCompleted := by
  refine ⟨⟨rfl, rfl⟩, rfl, rfl⟩

/-- C3 (amended): cancel takes effect at the per-item checkpoint: if the
cancel flag is set while the worker is at the top-of-loop checkpoint of a
pending item, the next worker step ends the run as Canceled without
starting the item, and no history entry is ever appended afterwards under
any further interleaving; in particular a cancel set before the worker
executes its first checkpoint yields zero appends and a Canceled run. -/
theorem cancel_at_checkpoint_stops_run (env : BatchEnv) :
    (∀ s : BatchState, s.phase = Phase.checkCancel → s.canceled = true →
      s.idx < env.items.length →
      (workerStep env s).phase = Phase.doneCanceled ∧
      (workerStep env s).history = s.history ∧
      (∀ acts : List Act,
        (run env acts (workerStep env s)).history = s.history ∧
        (run env acts (workerStep env s)).phase = Phase.doneCanceled)) ∧
    (env.items ≠ [] → ∀ acts : List Act,
      (run env (Act.cancel :: Act.work :: acts) initBatchState).history
          = [] ∧
      (run env (Act.cancel :: Act.work :: acts) initBatchState).phase
          = Phase.doneCanceled) := by
  constructor
  · intro s h1 h2 h3
    rw [workerStep_checkCancel_cancel env s h1 h2 h3]
    exact ⟨rfl, rfl, fun acts =>
      run_absorbs_doneCanceled env acts { s with phase := Phase.doneCanceled } rfl⟩
  · intro hne acts
    have h0 : 0 < env.items.length := List.length_pos.mpr hne
    have hw : workerStep env { initBatchState with canceled := true }
        = { initBatchState with canceled := true, phase := Phase.doneCanceled } :=
      workerStep_checkCancel_cancel env
        { initBatchState with canceled := true } rfl rfl h0
    have habs := run_absorbs_doneCanceled env acts
      { initBatchState with canceled := true, phase := Phase.doneCanceled } rfl
    rw [run_cons, run_cons]
    show (run env acts (workerStep env
          { initBatchState with canceled := true })).history = [] ∧
        (run env acts (workerStep env
          { initBatchState with canceled := true })).phase = Phase.doneCanceled
    rw [hw]
    exact habs

/-- C3 amended witness: cancel before the first worker step of a one-item
batch yields zero appends and a Canceled run. -/
theorem cancel_at_checkpoint_stops_run_witness :
    (run envOneOk [Act.cancel, Act.work] initBatchState).history = [] ∧
    (run envOneOk [Act.cancel, Act.work] initBatchState).phase
      = Phase.doneCanceled :=
  (cancel_at_checkpoint_stops_run envOneOk).2 (by decide) []

/-- C4: while the pause flag is set and no resume happens, no further
item is ever started (the worker never enters `downloading`) and no
history entry is appended; entering `downloading` requires the worker to
be at the pause-wait with the pause flag clear (i.e. after resume); and a
worker already inside `downloading` is unaffected by the flags — it
resolves its item, records its entry, and moves to the next checkpoint
whatever `paused` is. -/
theorem pause_blocks_new_item_starts (env : BatchEnv) :
    (∀ acts : List Act, Act.resume ∉ acts →
      ∀ s : BatchState, s.paused = true → s.phase ≠ Phase.downloading →
        (run env acts s).phase ≠ Phase.downloading ∧
        (run env acts s).history = s.history) ∧
    (∀ s : BatchState, (workerStep env s).phase = Phase.downloading →
      s.phase = Phase.waitPause ∧ s.paused = false) ∧
    (∀ (s : BatchState) (info : VideoInfo), s.phase = Phase.downloading →
      env.items[s.idx]? = some info →
      (workerStep env s).history = s.history ++
        [({ url := info.webpage_url, title := info.title,
            quality := env.quality, format := env.format_type,
            status := if env.out s.idx then "completed" else "failed",
            timestamp := env.now s.idx } : HistoryEntry)] ∧
      (workerStep env s).phase = Phase.checkCancel ∧
      (workerStep env s).idx = s.idx + 1) := by
  refine ⟨?_, ?_, ?_⟩
  · intro acts
    induction acts with
    | nil => intro _ s _ hph; exact ⟨hph, rfl⟩
    | cons a rest ih =>
      intro hres s hp hph
      have ha : a ≠ Act.resume := fun h => hres (h ▸ List.mem_cons_self a rest)
      have hrest : Act.resume ∉ rest := fun h => hres (List.mem_cons_of_mem a h)
      obtain ⟨h1, h2, h3⟩ := act_paused_invariant env s a ha hp hph
      rw [run_cons]
      obtain ⟨h4, h5⟩ := ih hrest (act env s a) h1 h2
      exact ⟨h4, h5.trans h3⟩
  · intro s h
    cases hph : s.phase with
    | checkCancel =>
      exfalso
      by_cases hle : env.items.length ≤ s.idx
      · simp [workerStep, hph, hle] at h
      · by_cases hc : s.canceled <;> simp [workerStep, hph, hle, hc] at h
    | waitPause =>
      refine ⟨rfl, ?_⟩
      by_cases hp : s.paused
      · have hw : workerStep env s = s := by simp [workerStep, hph, hp]
        rw [hw, hph] at h
        exact absurd h (by simp)
      · simpa using hp
    | downloading =>
      exfalso
      cases hget : env.items[s.idx]? with
      | none => simp [workerStep, hph, hget] at h
      | some info => simp [workerStep, hph, hget] at h
    | doneCompleted =>
      have hw : workerStep env s = s := by simp [workerStep, hph]
      rw [hw, hph] at h
      exact absurd h (by simp)
    | doneCanceled =>
      have hw : workerStep env s = s := by simp [workerStep, hph]
      rw [hw, hph] at h
      exact absurd h (by simp)
  · intro s info hph hget
    rw [workerStep_downloading_eq env s info hph hget]
    exact ⟨rfl, rfl, rfl⟩

/-- C4 witness: with the pause flag set, two uninterfered worker steps of
a one-item batch start no download and append nothing. -/
theorem pause_blocks_new_item_starts_witness :
    (run envOneOk [Act.work, Act.work]
      { idx := 0, phase := Phase.checkCancel, paused := true,
        canceled := false, history := [] }).phase ≠ Phase.downloading ∧
    (run envOneOk [Act.work, Act.work]
      { idx := 0, phase := Phase.checkCancel, paused := true,
        canceled := false, history := [] }).history = [] :=
  (pause_blocks_new_item_starts envOneOk).1 [Act.work, Act.work]
    (by decide)
    { idx := 0, phase := Phase.checkCancel, paused := true,
      canceled := false, history := [] } rfl (by decide)

end BareshaDownloader
